import Mathlib

/-!
Verification of the ComboCode modeling core (`Star.py`, `Transition.py`).

The development embeds the two subsystems the specification describes:

* the demand-driven parameter store of `Star` (a `dict` subclass whose
  `__getitem__` derives missing values through `missingInput` dispatch), and
* the transition entity layer of `Transition.py` (canonical identity,
  deduplication, and the `getBestVlsr` grid search).

Python floats are modelled as real numbers (`ℝ`) in the parameter-store
part (where `calcTLR` takes real roots) and as rationals (`ℚ`) in the
transition part (where all operations are field operations), so that the
transition-level computations stay decidable on concrete inputs.

External collaborators (file readers, `scipy.interp1d`, the statistics
helper `calcChiSquared`, the `Molecule` radiative tables) are not part of
the two source files; where a claim depends on them they are modelled from
the specification, with a doc comment saying so.
-/

namespace ComboCode

/-! ## Part 1: the `Star` parameter store (`Star.py`)

A `Star` is a `dict` from parameter names to values.  Python values that
occur in the modelled rules are strings, ints and floats; the reserved
volatile marker is the string `'%'`. -/

/-- A stored parameter value: a Python string, int or float
(floats modelled as real numbers). -/
inductive Value where
  | str (s : String)
  | int (n : ℤ)
  | real (x : ℝ)

/-- The volatile marker `'%'` of `Star.__getitem__`. -/
def volatileMarker : Value := Value.str "%"

/-- Python's `value == '%'` test from `Star.__getitem__` (line 197):
true exactly for the string `'%'`. -/
def Value.isVolatile : Value → Bool
  | Value.str s => s = "%"
  | _ => false

/-- Python's `float(value)`: succeeds on numbers, raises on the
(non-numeric) strings that occur as stored values in the model. -/
def Value.toReal : Value → Option ℝ
  | Value.str _ => none
  | Value.int n => some (n : ℝ)
  | Value.real x => some x

/-- The `Star` dictionary: a finite partial map from parameter names to
values, modelled as a lookup function. -/
def Store : Type := String → Option Value

/-- `self.has_key(key)`. -/
def Store.hasKey (s : Store) (k : String) : Bool := (s k).isSome

/-- `self[key] = v` (plain dictionary write). -/
def Store.insert (s : Store) (k : String) (v : Value) : Store :=
  fun k' => if k' = k then some v else s k'

/-- `del self[key]`. -/
def Store.erase (s : Store) (k : String) : Store :=
  fun k' => if k' = k then none else s k'

/-- `Star.calcN_QUAD` (lines 534-546): default `N_QUAD` to the int `100`
if absent, otherwise do nothing. -/
def calcN_QUAD (s : Store) : Store :=
  if s.hasKey "N_QUAD" then s else s.insert "N_QUAD" (Value.int 100)

/-- `Star.calcLL_OFFSET` (lines 550-562): default `LL_OFFSET` to the float
`0.0` if absent, otherwise do nothing. -/
def calcLL_OFFSET (s : Store) : Store :=
  if s.hasKey "LL_OFFSET" then s else s.insert "LL_OFFSET" (Value.real 0)

/-- `Star.calcSTARTYPE` (lines 2221-2232): default `STARTYPE` to `'BB'`. -/
def calcSTARTYPE (s : Store) : Store :=
  if s.hasKey "STARTYPE" then s else s.insert "STARTYPE" (Value.str "BB")

/-- `Star.calcSTARFILE` (lines 2236-2247): default `STARFILE` to `''`. -/
def calcSTARFILE (s : Store) : Store :=
  if s.hasKey "STARFILE" then s else s.insert "STARFILE" (Value.str "")

/-- The solar effective temperature `Tsun = 5778.0` of `Star.calcTLR`. -/
def Tsun : ℝ := 5778

mutual

/-- `Star.__getitem__` (lines 177-204), with a fuel parameter bounding the
depth of the unguarded reentrant derivation recursion; `none` models a
raised exception (`KeyError`, or exhaustion standing for nontermination).

* missing key: call `missingInput`, then return the freshly stored value
  (`KeyError` if the rule did not store one);
* stored value `== '%'`: delete the entry, re-derive via `missingInput`,
  read the derived value, write `'%'` back, return the derived value;
* otherwise: return the stored value. -/
noncomputable def getItem : ℕ → Store → String → Option (Value × Store)
  | 0, _, _ => none
  | n + 1, s, key =>
    match s key with
    | none =>
      match missingInput n s key with
      | none => none
      | some s1 =>
        match s1 key with
        | none => none
        | some v => some (v, s1)
    | some v =>
      if v.isVolatile then
        match missingInput n (s.erase key) key with
        | none => none
        | some s2 =>
          match s2 key with
          | none => none
          | some v2 => some (v2, s2.insert key volatileMarker)
      else
        some (v, s)

/-- `Star.missingInput` (lines 2659-2693): dispatch a missing key to its
derivation rule.  The embedded branches are the `T_STAR/L_STAR/R_STAR`
branch (`calcTLR`) and the reflective `'calc' + key` branch for the pure
default rules modelled above.  The remaining branches (`getClassAttr`,
`calcR_MAX`, `checkT`, `calcT_DES` and the other `calc*` methods) read
external collaborator files and are outside this embedding; together with
the source's terminal `else: pass` they are represented by the final
no-op branch. -/
noncomputable def missingInput : ℕ → Store → String → Option Store
  | 0, _, _ => none
  | n + 1, s, key =>
    if key = "T_STAR" ∨ key = "L_STAR" ∨ key = "R_STAR" then calcTLR n s
    else if key = "N_QUAD" then some (calcN_QUAD s)
    else if key = "LL_OFFSET" then some (calcLL_OFFSET s)
    else if key = "STARTYPE" then some (calcSTARTYPE s)
    else if key = "STARFILE" then some (calcSTARFILE s)
    else some s

/-- `Star.calcTLR` (lines 866-893): Stefan-Boltzmann.  Computes the one
missing parameter among `T_STAR`, `L_STAR`, `R_STAR` (solar units) from
the other two, which are read through `self[...]`, i.e. through the
recursive `getItem`; does nothing when all three are present.  Python
float powers `** 2.`, `** 4.`, `** (1/4.)`, `** (1/2.)` are modelled by
real `rpow`; the int power `** 4` in the `R_STAR` branch by a monoid
power. -/
noncomputable def calcTLR : ℕ → Store → Option Store
  | 0, _ => none
  | n + 1, s =>
    if ¬ s.hasKey "T_STAR" then
      match getItem n s "L_STAR" with
      | none => none
      | some (lv, s1) =>
        match lv.toReal with
        | none => none
        | some l =>
          match getItem n s1 "R_STAR" with
          | none => none
          | some (rv, s2) =>
            match rv.toReal with
            | none => none
            | some r =>
              some (s2.insert "T_STAR"
                (Value.real ((l / r ^ (2 : ℝ)) ^ ((1 : ℝ) / 4) * Tsun)))
    else if ¬ s.hasKey "L_STAR" then
      match getItem n s "R_STAR" with
      | none => none
      | some (rv, s1) =>
        match rv.toReal with
        | none => none
        | some r =>
          match getItem n s1 "T_STAR" with
          | none => none
          | some (tv, s2) =>
            match tv.toReal with
            | none => none
            | some t =>
              some (s2.insert "L_STAR"
                (Value.real (r ^ (2 : ℝ) * (t / Tsun) ^ (4 : ℝ))))
    else if ¬ s.hasKey "R_STAR" then
      match getItem n s "L_STAR" with
      | none => none
      | some (lv, s1) =>
        match lv.toReal with
        | none => none
        | some l =>
          match getItem n s1 "T_STAR" with
          | none => none
          | some (tv, s2) =>
            match tv.toReal with
            | none => none
            | some t =>
              some (s2.insert "R_STAR"
                (Value.real ((l * (Tsun / t) ^ (4 : ℕ)) ^ ((1 : ℝ) / 2))))
    else
      some s

end

/-! ## Part 2: transition entities (`Transition.py`)

All float data in this layer (velocities, fluxes, offsets, frequencies)
are field values, so they are modelled over `ℚ`, which keeps every
operation computable and decidable on concrete inputs. -/

/-- One row of a molecule's radiative transition table (the GASTRoNOoM
`radiat.dat` data behind `Molecule.radiat`). -/
structure RadiatEntry where
  low_i : ℤ
  up_i : ℤ
  frequency : ℚ
deriving DecidableEq

/-- Modelled from the spec: `Molecule.radiat.getTransInfo` (the `Molecule`
module is an external collaborator).  It returns the table entry for a
`(low_i, up_i)` index pair, and fails (the source receives `False`) when
the pair does not map to a unique entry of the table. -/
def getTransInfo (radiat : List RadiatEntry) (low up : ℤ) : Option RadiatEntry :=
  match radiat.filter (fun e => decide (e.low_i = low) && decide (e.up_i = up)) with
  | [e] => some e
  | _ => none

/-- The molecule data a `Transition` reads: names, level bookkeeping and
the radiative table (all supplied by the external `Molecule` module). -/
structure Molecule where
  molecule : String
  molecule_full : String
  ny_low : ℤ
  spec_indices : ℕ
  radiat_indices : List (List ℤ)
  radiat : List RadiatEntry
deriving DecidableEq

/-- `Transition.__setIndices` (lines 758-798): resolve the upper/lower
level indices of a transition in its molecule's radiative table and read
the frequency.  `none` models the fatal outcomes: a quantum-number lookup
miss (`ValueError` from `.index`), or a non-unique index pair, where the
source prompts (`raw_input`) and then crashes subscripting `False`. -/
def setIndices (m : Molecule) (vup jup kaup kcup vlow jlow kalow kclow : ℤ) :
    Option (ℤ × ℤ × ℚ) :=
  if m.spec_indices = 0 then
    let upIdx := jup + vup * m.ny_low + 1
    let lowIdx := jlow + vlow * m.ny_low + 1
    match getTransInfo m.radiat lowIdx upIdx with
    | none => none
    | some e => some (upIdx, lowIdx, e.frequency)
  else
    let indices := m.radiat_indices
    let w := (indices.headD []).length
    let qup := [vup, jup, kaup, kcup].take (w - 1)
    let qlow := [vlow, jlow, kalow, kclow].take (w - 1)
    match indices.findIdx? (fun row => decide (row.drop 1 = qup)) with
    | none => none
    | some ju =>
      match indices.findIdx? (fun row => decide (row.drop 1 = qlow)) with
      | none => none
      | some jl =>
        let upIdx := (indices.getD ju []).headD 0
        let lowIdx := (indices.getD jl []).headD 0
        match getTransInfo m.radiat lowIdx upIdx with
        | none => none
        | some e => some (upIdx, lowIdx, e.frequency)

/-- One observed line profile (`self.lpdata` entries).  The reader classes
are external; a profile carries the velocity grid, the fluxes, the source
velocity it reports through `getVlsr()`, and the fixed noise level its
`getNoise` reports (modelled from the spec: "a fixed noise level"). -/
structure LProf where
  vlsrVal : ℚ
  dvel : List ℚ
  dtmb : List ℚ
  noise : ℚ
deriving DecidableEq

/-- A modeled (sphinx) line profile: velocity grid and fluxes. -/
structure SphinxModel where
  mvel : List ℚ
  mtmb : List ℚ
deriving DecidableEq

/-- The state of a `Transition` object: the canonical quantum/telescope
data fixed at construction, plus the mutable non-canonical attributes
(datafiles, model id, cached profiles, best-fit velocity data). -/
structure Transition where
  molecule : Molecule
  telescope : String
  vup : ℤ
  jup : ℤ
  kaup : ℤ
  kcup : ℤ
  vlow : ℤ
  jlow : ℤ
  kalow : ℤ
  kclow : ℤ
  offset : ℚ
  n_quad : ℤ
  use_maser_in_sphinx : ℤ
  vexp : Option ℚ
  model_id : Option String
  up_i : Option ℤ
  low_i : Option ℤ
  frequency : ℚ
  datafiles : Option (List String)
  lpdata : Option (List LProf)
  sphinx : Option SphinxModel
  best_vlsr : Option ℚ
  chi2_best_vlsr : Option ℚ
  dtmb_best_vlsr : Option (List ℚ)
deriving DecidableEq

/-- The dynamically typed `datafile(s)` argument of `Transition.__init__`
and `Transition.addDatafile`: a single filename string, a list of
filenames, or Python `None`. -/
inductive DFArg where
  | file (s : String)
  | files (l : List String)
  | absent
deriving DecidableEq

/-- The `datafiles` attribute produced by `Transition.__init__` (lines
424-427): a string becomes a one-element list, a list is kept, `None`
stays `None`. -/
def dfInit : DFArg → Option (List String)
  | DFArg.file s => some [s]
  | DFArg.files l => some l
  | DFArg.absent => none

/-- The `Transition.__init__` constructor (lines 264-436) for the fields
the claims exercise.  A missing telescope becomes `'N.A.'`, otherwise the
telescope is upper-cased; when no frequency is supplied the level indices
and the frequency are resolved via `setIndices`, and `none` models the
fatal construction failure of that resolution. -/
def mkTransition (molecule : Molecule) (telescope : Option String)
    (vup jup kaup kcup vlow jlow kalow kclow : ℤ) (offset : ℚ)
    (frequency : Option ℚ) (n_quad use_maser_in_sphinx : ℤ)
    (vexp : Option ℚ) (datafiles : DFArg) : Option Transition :=
  let tel := match telescope with
    | none => "N.A."
    | some s => s.toUpper
  let mk0 := fun (u l : Option ℤ) (f : ℚ) =>
    { molecule := molecule, telescope := tel, vup := vup, jup := jup,
      kaup := kaup, kcup := kcup, vlow := vlow, jlow := jlow,
      kalow := kalow, kclow := kclow, offset := offset, n_quad := n_quad,
      use_maser_in_sphinx := use_maser_in_sphinx, vexp := vexp,
      model_id := none, up_i := u, low_i := l, frequency := f,
      datafiles := dfInit datafiles, lpdata := none, sphinx := none,
      best_vlsr := none, chi2_best_vlsr := none,
      dtmb_best_vlsr := none : Transition }
  match frequency with
  | some f => some (mk0 none none f)
  | none =>
    match setIndices molecule vup jup kaup kcup vlow jlow kalow kclow with
    | none => none
    | some (u, l, f) => some (mk0 (some u) (some l) f)

/-- Python `'%.2f'` formatting of the pointing offset in
`Transition.__str__`, modelled as rounding to the nearest hundredth. -/
def fmt2 (q : ℚ) : String :=
  let c : ℤ := round (q * 100)
  let a : ℕ := c.natAbs
  (if c < 0 then "-" else "") ++ toString (a / 100) ++ "." ++
    (if a % 100 < 10 then "0" else "") ++ toString (a % 100)

/-- The body of `Transition.__str__` (lines 439-452) after the
`TRANSITION=` prefix: the full molecule name, the eight quantum numbers,
the telescope and the offset formatted with `%.2f`. -/
def transitionBody (t : Transition) : String :=
  t.molecule.molecule_full ++ " " ++ toString t.vup ++ " " ++ toString t.jup
    ++ " " ++ toString t.kaup ++ " " ++ toString t.kcup ++ " "
    ++ toString t.vlow ++ " " ++ toString t.jlow ++ " " ++ toString t.kalow
    ++ " " ++ toString t.kclow ++ " " ++ t.telescope ++ " " ++ fmt2 t.offset

/-- `str(trans)`: `Transition.__str__`. -/
def transitionStr (t : Transition) : String :=
  "TRANSITION=" ++ transitionBody t

/-- The dictionary returned by `Transition.makeDict` (lines 635-660, with
the default `in_progress=0`): the transition string stripped of its
`TRANSITION=` prefix, `N_QUAD` and `USE_MASER_IN_SPHINX`. -/
structure TransDict where
  transition : String
  n_quad : ℤ
  use_maser_in_sphinx : ℤ
deriving DecidableEq

/-- `Transition.makeDict()`. -/
def makeDict (t : Transition) : TransDict :=
  { transition := transitionBody t, n_quad := t.n_quad,
    use_maser_in_sphinx := t.use_maser_in_sphinx }

/-- `Transition.__eq__` (lines 456-475): two transitions are equal exactly
when their `makeDict()` snapshots coincide. -/
def transEq (t1 t2 : Transition) : Bool :=
  decide (makeDict t1 = makeDict t2)

/-- `Transition.__hash__` (lines 502-514): `hash(str(self.makeDict()))`.
Python's `str` of a fixed-key dict is a function of the dict and `hash` a
function of that string, so the hash key is modelled as the dict
snapshot. -/
def transHashKey (t : Transition) : TransDict := makeDict t

/-- Modelled from the spec (section 3): the canonical descriptor of a
transition is its molecule identity, the eight quantum numbers, the
observing telescope and the pointing offset. -/
structure CanonicalDescriptor where
  molecule_full : String
  vup : ℤ
  jup : ℤ
  kaup : ℤ
  kcup : ℤ
  vlow : ℤ
  jlow : ℤ
  kalow : ℤ
  kclow : ℤ
  telescope : String
  offset : ℚ
deriving DecidableEq

/-- The canonical descriptor of a transition (spec section 3 wording). -/
def canonicalDescriptor (t : Transition) : CanonicalDescriptor :=
  { molecule_full := t.molecule.molecule_full, vup := t.vup, jup := t.jup,
    kaup := t.kaup, kcup := t.kcup, vlow := t.vlow, jlow := t.jlow,
    kalow := t.kalow, kclow := t.kclow, telescope := t.telescope,
    offset := t.offset }

/-- `Transition.addDatafile` (lines 961-980).  A string argument is
appended as a one-element addition; a list argument is stored when no
datafiles exist yet and extends them otherwise; a `None` argument leaves
an absent datafile list absent but makes `self.datafiles.extend(None)`
raise `TypeError` (modelled as `none`) when datafiles are present. -/
def addDatafile (t : Transition) (df : DFArg) : Option Transition :=
  match df with
  | DFArg.file s =>
    match t.datafiles with
    | none => some { t with datafiles := some [s] }
    | some l0 => some { t with datafiles := some (l0 ++ [s]) }
  | DFArg.files l =>
    match t.datafiles with
    | none => some { t with datafiles := some l }
    | some l0 => some { t with datafiles := some (l0 ++ l) }
  | DFArg.absent =>
    match t.datafiles with
    | none => some t
    | some _ => none

/-- The `datafiles` attribute of a transition as the argument it passes to
`addDatafile` in `checkUniqueness` (`trans.datafiles`: a list or `None`). -/
def dfArgOfFiles : Option (List String) → DFArg
  | none => DFArg.absent
  | some l => DFArg.files l

/-- The loop of `checkUniqueness` (lines 226-253) over the remaining
input, carrying the `merged` accumulator: a transition not yet in `merged`
(per `Transition.__eq__`) is appended; otherwise its datafiles are added
to the first equal element of `merged`. -/
def checkUniquenessGo (merged : List Transition) :
    List Transition → Option (List Transition)
  | [] => some merged
  | t :: rest =>
    match merged.findIdx? (fun m => transEq m t) with
    | none => checkUniquenessGo (merged ++ [t]) rest
    | some i =>
      match addDatafile (merged.getD i t) (dfArgOfFiles t.datafiles) with
      | none => none
      | some m2 => checkUniquenessGo (merged.set i m2) rest

/-- `checkUniqueness` (lines 226-253): merge a transition list so that
equal transitions are represented once, with all datafiles collected on
the representative; `none` models the `TypeError` raised when a later
duplicate carries `None` datafiles while its representative holds a
list. -/
def checkUniqueness (ts : List Transition) : Option (List Transition) :=
  checkUniquenessGo [] ts

/-- The datafiles contributed to the representative of `t` by a list of
transitions: the concatenation, in order, of the datafile lists of the
members equal to `t`. -/
def classDatafiles (ts : List Transition) (t : Transition) : List String :=
  ((ts.filter (fun u => transEq u t)).map (fun u => u.datafiles.getD [])).flatten

/-- The merge `checkUniqueness` performs, written as a direct recursion:
keep the first-seen element of every equality class, in first-seen order,
and give it the concatenated datafiles of its whole class. -/
def mergeSpec : List Transition → List Transition
  | [] => []
  | t :: rest =>
    { t with datafiles := some (t.datafiles.getD [] ++ classDatafiles rest t) }
      :: mergeSpec (rest.filter (fun u => ! transEq u t))
termination_by l => l.length
decreasing_by
  exact Nat.lt_succ_of_le (List.length_filter_le _ _)

/-- The final phase of `Star.calcGAS_LINES` (lines 2198-2215): sort the
assembled transition collection by `str(trans)` and fail (the raised
`IOError`) exactly when its length differs from the number of distinct
serializations. -/
def calcGAS_LINES_check (lines : List Transition) :
    Except String (List Transition) :=
  let sortedLines := lines.mergeSort (fun a b => decide (transitionStr a ≤ transitionStr b))
  let requested := (sortedLines.map transitionStr).dedup
  if sortedLines.length = requested.length then Except.ok sortedLines
  else Except.error "Multiple parameter sets for a single transition requested"

/-- Modelled from the spec: `scipy.interpolate.interp1d` (an external
collaborator) builds a piecewise-linear interpolant of `(x, y)` samples;
outside the sampled range the model continues with the boundary value
(the source comments that the search "never fall[s] out of the
interpolator range"). -/
def interpPairs : List (ℚ × ℚ) → ℚ → ℚ
  | [], _ => 0
  | [(_, y0)], _ => y0
  | (x0, y0) :: (x1, y1) :: rest, x =>
    if x ≤ x0 then y0
    else if x ≤ x1 then y0 + (y1 - y0) * (x - x0) / (x1 - x0)
    else interpPairs ((x1, y1) :: rest) x

/-- Linear interpolation of the observed flux (`interp1d(dvel, dtmb)`). -/
def interpolateLin (xs ys : List ℚ) (x : ℚ) : ℚ :=
  interpPairs (xs.zip ys) x

/-- Modelled from the spec: `calcChiSquared` from
`cc.statistics.BasicStats` (not among the source files): the "sum of
squared residuals between observed and modeled flux, normalized by
noise". -/
def calcChiSquared (data model : List ℚ) (noise : ℚ) : ℚ :=
  (((data.zip model).map (fun p => (p.1 - p.2) ^ 2)).sum) / noise ^ 2

/-- One candidate's chi-squared in `Transition.getBestVlsr` (line 1102):
the boolean mask `dtmbi >= -noise`, computed from the interpolated data
samples, selects the positions of both the data and the model samples
that enter `calcChiSquared`. -/
def maskedChi2 (dtmbi mtmb : List ℚ) (noise : ℚ) : ℚ :=
  let kept := (dtmbi.zip mtmb).filter (fun p => decide (-noise ≤ p.1))
  calcChiSquared (kept.map Prod.fst) (kept.map Prod.snd) noise

/-- `scipy.linspace a b n` with included endpoint: `a + i*(b-a)/(n-1)`. -/
def linspaceQ (a b : ℚ) (n : ℕ) : List ℚ :=
  (List.range n).map (fun i : ℕ => a + (i : ℚ) * ((b - a) / ((n : ℚ) - 1)))

/-- Python `min` on a (nonempty) list of floats. -/
def listMin : List ℚ → ℚ
  | [] => 0
  | x :: xs => xs.foldl min x

/-- `numpy.argmin`: the first index attaining the minimum. -/
def argminIdx : List ℚ → ℕ
  | [] => 0
  | [_] => 0
  | x :: y :: xs => if x ≤ listMin (y :: xs) then 0 else argminIdx (y :: xs) + 1

/-- The candidate grid of `getBestVlsr`:
`linspace(vlsr - 0.5*vexp, vlsr + 0.5*vexp, 31)`. -/
def vlsrGrid (vlsr vexp : ℚ) : List ℚ :=
  linspaceQ (vlsr - 1/2 * vexp) (vlsr + 1/2 * vexp) 31

/-- The observed fluxes interpolated onto the model velocity grid shifted
by a candidate source velocity (`interpolator(mvel + vlsri)`). -/
def candidateInterp (lp : LProf) (sp : SphinxModel) (c : ℚ) : List ℚ :=
  sp.mvel.map (fun x => interpolateLin lp.dvel lp.dtmb (x + c))

/-- The chi-squared scores of all 31 candidates of `getBestVlsr`. -/
def candidateChis (lp : LProf) (sp : SphinxModel) (vexp : ℚ) : List ℚ :=
  (vlsrGrid lp.vlsrVal vexp).map
    (fun c => maskedChi2 (candidateInterp lp sp c) sp.mtmb lp.noise)

/-- `Transition.readData` (lines 984-1004): when no data were read yet,
read every datafile through the external reader classes; the outcome of
reading a datafile list is supplied by the `dataRead` oracle, and a
transition without datafiles gets the empty profile list. -/
def readData (dataRead : List String → List LProf) (t : Transition) :
    Transition :=
  match t.lpdata with
  | some _ => t
  | none =>
    { t with lpdata := some (match t.datafiles with
        | none => []
        | some dfs => dataRead dfs) }

/-- `Transition.readSphinx` (lines 944-957): read the sphinx output when a
nonempty model id is set and nothing was read yet; the outcome of the
external `SphinxReader` is supplied by the `sphinxRead` oracle. -/
def readSphinx (sphinxRead : Option SphinxModel) (t : Transition) :
    Transition :=
  match t.sphinx with
  | some _ => t
  | none =>
    match t.model_id with
    | none => t
    | some id0 => if id0 = "" then t else { t with sphinx := sphinxRead }

/-- `Transition.getBestVlsr` (lines 1031-1113).  Returns the pair of the
returned source velocity and the updated object state:

* a cached `best_vlsr` is returned immediately, unchanged state;
* without data the initial guess is returned; without a sphinx model or
  without `vexp`, the data-supplied source velocity is returned;
* otherwise the 31 candidates `linspace(vlsr-0.5*vexp, vlsr+0.5*vexp, 31)`
  are scored with `maskedChi2` on the interpolated data, and the first
  minimizer is recorded and returned. -/
def getBestVlsr (dataRead : List String → List LProf)
    (sphinxRead : Option SphinxModel) (t : Transition) (vlsr : Option ℚ) :
    Option ℚ × Transition :=
  match t.best_vlsr with
  | some b => (some b, t)
  | none =>
    let t1 := readData dataRead t
    match t1.lpdata with
    | none => (vlsr, t1)
    | some [] => (vlsr, t1)
    | some (lp :: _) =>
      let vlsr1 := lp.vlsrVal
      let t2 := readSphinx sphinxRead t1
      match t2.sphinx with
      | none => (some vlsr1, t2)
      | some sp =>
        match t2.vexp with
        | none => (some vlsr1, t2)
        | some vexp =>
          let grid := vlsrGrid vlsr1 vexp
          let dtmbInterp := grid.map (fun c => candidateInterp lp sp c)
          let chis := candidateChis lp sp vexp
          let i := argminIdx chis
          let best := grid.getD i 0
          (some best,
            { t2 with best_vlsr := some best,
                      chi2_best_vlsr := some (listMin chis),
                      dtmb_best_vlsr := some (dtmbInterp.getD i []) })

/-! Auxiliary specification functions used to characterize
`checkUniqueness`. -/

/-- The representative a merged list element becomes after absorbing the
datafiles of all later duplicates in `ts`: unchanged when `ts` holds no
duplicate of it, otherwise its datafile list (empty if absent) extended
with the class datafiles. -/
def absorbOne (ts : List Transition) (m : Transition) : Transition :=
  if (ts.filter (fun u => transEq u m)).isEmpty then m
  else { m with datafiles := some (m.datafiles.getD [] ++ classDatafiles ts m) }

/-- The elements of `ts` that are not equal to any element of `merged`. -/
def newOnes (merged ts : List Transition) : List Transition :=
  ts.filter (fun t => ! merged.any (fun m => transEq m t))

/-! Concrete instances used in the claim checks and witnesses. -/

/-- A store holding only a volatile `N_QUAD` entry. -/
def storeVolatileNQ : Store :=
  fun k => if k = "N_QUAD" then some (Value.str "%") else none

/-- A store holding only `N_QUAD = 100`. -/
def storeNQ : Store :=
  fun k => if k = "N_QUAD" then some (Value.int 100) else none

/-- A store holding `T_STAR = 3000` and `L_STAR = 10000`. -/
noncomputable def storeTL : Store :=
  fun k =>
    if k = "T_STAR" then some (Value.real 3000)
    else if k = "L_STAR" then some (Value.real 10000)
    else none

/-- A store holding `R_STAR = 927369/2500` (which is
`sqrt(10000)*(5778/3000)^2`) and `T_STAR = 3000`. -/
noncomputable def storeRT : Store :=
  fun k =>
    if k = "R_STAR" then some (Value.real (927369 / 2500))
    else if k = "T_STAR" then some (Value.real 3000)
    else none

/-- A store holding `R_STAR = 2` and `T_STAR = 5778`. -/
noncomputable def storeR2T : Store :=
  fun k =>
    if k = "R_STAR" then some (Value.real 2)
    else if k = "T_STAR" then some (Value.real 5778)
    else none

/-- The value `calcTLR` stores for `R_STAR` on `storeTL`. -/
noncomputable def rComputedVal : ℝ := ((10000 : ℝ) * (Tsun / 3000) ^ (4 : ℕ)) ^ ((1 : ℝ) / 2)

/-- The value `calcTLR` stores for `L_STAR` on `storeRT`. -/
noncomputable def lComputedVal : ℝ := ((927369 : ℝ) / 2500) ^ (2 : ℝ) * ((3000 : ℝ) / Tsun) ^ (4 : ℝ)

/-- A CO-like molecule with a one-line radiative table. -/
def molW : Molecule :=
  { molecule := "12C16O", molecule_full := "12C16O", ny_low := 60,
    spec_indices := 0, radiat_indices := [],
    radiat := [{ low_i := 1, up_i := 2, frequency := 115271 }] }

/-- A molecule whose radiative table contains a duplicated index pair
`(low_i, up_i) = (1, 2)`. -/
def molDup : Molecule :=
  { molecule := "12C16O", molecule_full := "12C16O", ny_low := 60,
    spec_indices := 0, radiat_indices := [],
    radiat := [{ low_i := 1, up_i := 2, frequency := 115271 },
               { low_i := 1, up_i := 2, frequency := 230538 }] }

/-- A concrete base transition (CO J=1-0 through HIFI, no data). -/
def transW : Transition :=
  { molecule := molW, telescope := "HIFI", vup := 0, jup := 1, kaup := 0,
    kcup := 0, vlow := 0, jlow := 0, kalow := 0, kclow := 0, offset := 0,
    n_quad := 100, use_maser_in_sphinx := 0, vexp := none, model_id := none,
    up_i := none, low_i := none, frequency := 115271, datafiles := none,
    lpdata := none, sphinx := none, best_vlsr := none,
    chi2_best_vlsr := none, dtmb_best_vlsr := none }

/-- `transW` with `N_QUAD = 200` and unchanged canonical descriptor. -/
def transNQ2 : Transition := { transW with n_quad := 200 }

/-- `transW` with datafile `a.dat`, a model id and a best-fit velocity. -/
def transA : Transition :=
  { transW with datafiles := some ["a.dat"], model_id := some "model1",
                best_vlsr := some 3 }

/-- `transW` with datafile `b.dat`, another model id and a cached sphinx
profile. -/
def transB : Transition :=
  { transW with datafiles := some ["b.dat"], model_id := some "model2",
                sphinx := some { mvel := [], mtmb := [] } }

/-- `transW` with only datafile `a.dat`. -/
def transDFa : Transition := { transW with datafiles := some ["a.dat"] }

/-- `transW` with only datafile `b.dat`. -/
def transDFb : Transition := { transW with datafiles := some ["b.dat"] }

/-- `transW` with a cached best-fit velocity. -/
def transCached : Transition := { transW with best_vlsr := some 5 }

/-- An observed profile that is the exact copy of `spShift` shifted by
`+2` velocity units from the nominal source velocity `0`. -/
def lpShift : LProf := { vlsrVal := 0, dvel := [1, 3], dtmb := [0, 1], noise := 1/10 }

/-- A two-point modeled (sphinx) profile centered on zero velocity. -/
def spShift : SphinxModel := { mvel := [-1, 1], mtmb := [0, 1] }

/-- A transition with data, sphinx model and expansion velocity available,
whose observed profile is the model shifted by exactly `+2`. -/
def transShift : Transition :=
  { transW with lpdata := some [lpShift], sphinx := some spShift,
                vexp := some 60 }

/-! ## Part 3: auxiliary lemmas

The rational arithmetic operations are irreducible by default, which
blocks `decide`-style evaluation of the concrete instances below; they
are restored to ordinary reducibility for this development. -/

set_option allowUnsafeReducibility true

attribute [local semireducible] Rat.add Rat.mul Rat.inv Rat.sub Rat.div Rat.neg

theorem isVolatile_false_of_ne (v : Value) (h : v ≠ volatileMarker) :
    v.isVolatile = false := by
  cases v with
  | str s =>
    simp only [volatileMarker, ne_eq, Value.str.injEq] at h
    simp [Value.isVolatile, h]
  | int n => rfl
  | real x => rfl

/-- A present, non-volatile key is returned as stored, with the store
untouched: the plain-read branch of `Star.__getitem__`. -/
theorem getItem_present (n : ℕ) (s : Store) (key : String) (v : Value)
    (h : s key = some v) (hv : v.isVolatile = false) :
    getItem (n + 1) s key = some (v, s) := by
  simp [getItem, h, hv]

/-- A successful `getItem` on a key that is not stored as the volatile
marker leaves the returned value stored in the returned state. -/
theorem getItem_stores (n : ℕ) (s : Store) (key : String) (v : Value)
    (s1 : Store) (hvol : s key ≠ some volatileMarker)
    (h : getItem (n + 1) s key = some (v, s1)) : s1 key = some v := by
  rw [getItem] at h
  cases hk : s key with
  | none =>
    cases h1 : missingInput n s key with
    | none => simp [hk, h1] at h
    | some s2 =>
      cases h2 : s2 key with
      | none => simp [hk, h1, h2] at h
      | some v2 =>
        simp only [hk, h1, h2, Option.some.injEq, Prod.mk.injEq] at h
        rw [← h.1, ← h.2]
        exact h2
  | some v0 =>
    have hvf : v0.isVolatile = false := by
      apply isVolatile_false_of_ne
      intro hx
      exact hvol (hx ▸ hk)
    simp only [hk, hvf, Bool.false_eq_true, if_false, Option.some.injEq,
      Prod.mk.injEq] at h
    rw [← h.1, ← h.2]
    exact hk

theorem zipFstSnd (l : List (ℚ × ℚ)) :
    (l.map Prod.fst).zip (l.map Prod.snd) = l := by
  induction l with
  | nil => rfl
  | cons a l ih => simp [ih]

/-! Lemmas on transition equality and the `checkUniqueness` merge. -/

theorem transEq_iff (a b : Transition) :
    transEq a b = true ↔ makeDict a = makeDict b := by
  simp [transEq]

theorem transEq_comm (a b : Transition) : transEq a b = transEq b a := by
  by_cases h : makeDict a = makeDict b
  · rw [(transEq_iff a b).mpr h, (transEq_iff b a).mpr h.symm]
  · have hba : ¬ makeDict b = makeDict a := fun hh => h hh.symm
    simp [transEq, h, hba]

theorem transEq_trans (a b c : Transition) (h1 : transEq a b = true)
    (h2 : transEq b c = true) : transEq a c = true :=
  (transEq_iff a c).mpr
    (((transEq_iff a b).mp h1).trans ((transEq_iff b c).mp h2))

theorem transEq_congr_left (a a' b : Transition)
    (h : makeDict a = makeDict a') : transEq a b = transEq a' b := by
  simp [transEq, h]

theorem transEq_congr_right (a b b' : Transition)
    (h : makeDict b = makeDict b') : transEq a b = transEq a b' := by
  simp [transEq, h]

theorem makeDict_update_datafiles (t : Transition)
    (d : Option (List String)) :
    makeDict { t with datafiles := d } = makeDict t := rfl

theorem addDatafile_files (t : Transition) (l : List String) :
    addDatafile t (DFArg.files l)
      = some { t with datafiles := some (t.datafiles.getD [] ++ l) } := by
  cases h : t.datafiles with
  | none => simp [addDatafile, h]
  | some l0 => simp [addDatafile, h]

theorem absorbOne_nil (m : Transition) : absorbOne [] m = m := rfl

theorem absorbOne_cons_ne (t m : Transition) (rest : List Transition)
    (h : transEq t m = false) :
    absorbOne (t :: rest) m = absorbOne rest m := by
  simp [absorbOne, classDatafiles, List.filter_cons, h]

theorem classDatafiles_congr (rest : List Transition) (m m' : Transition)
    (h : makeDict m = makeDict m') :
    classDatafiles rest m = classDatafiles rest m' := by
  unfold classDatafiles
  rw [List.filter_congr (fun u _ => transEq_congr_right u m m' h)]

theorem absorbOne_eq_update (t : Transition) (rest : List Transition)
    (lt : List String) (h : t.datafiles = some lt) :
    absorbOne rest t
      = { t with
          datafiles := some (t.datafiles.getD [] ++ classDatafiles rest t) } := by
  unfold absorbOne
  cases hemp : (rest.filter (fun u => transEq u t)).isEmpty with
  | false => simp
  | true =>
    have hnil : rest.filter (fun u => transEq u t) = [] := by
      simpa using hemp
    have hcd : classDatafiles rest t = [] := by
      simp [classDatafiles, hnil]
    have hval : some (t.datafiles.getD [] ++ classDatafiles rest t)
        = t.datafiles := by
      rw [hcd, List.append_nil, h]
      rfl
    simp only [hemp, if_true]
    rw [hval]

theorem absorbOne_head (m t : Transition) (lt : List String)
    (rest : List Transition) (hmt : transEq m t = true)
    (hlt : t.datafiles = some lt) :
    absorbOne rest { m with datafiles := some (m.datafiles.getD [] ++ lt) }
      = absorbOne (t :: rest) m := by
  have htm : transEq t m = true := by rw [transEq_comm]; exact hmt
  have hdict : makeDict
      ({ m with datafiles := some (m.datafiles.getD [] ++ lt) } : Transition)
      = makeDict m := rfl
  have hfeq : rest.filter (fun u => transEq u
        ({ m with datafiles := some (m.datafiles.getD [] ++ lt) } : Transition))
      = rest.filter (fun u => transEq u m) :=
    List.filter_congr (fun u _ => transEq_congr_right u _ m hdict)
  have hcd : classDatafiles rest
        ({ m with datafiles := some (m.datafiles.getD [] ++ lt) } : Transition)
      = classDatafiles rest m := classDatafiles_congr rest _ m hdict
  have hclass : classDatafiles (t :: rest) m = lt ++ classDatafiles rest m := by
    simp [classDatafiles, List.filter_cons, htm, hlt]
  have hne : ((t :: rest).filter (fun u => transEq u m)).isEmpty = false := by
    simp [List.filter_cons, htm]
  unfold absorbOne
  rw [hfeq, hcd, hclass, hne]
  simp only [Bool.false_eq_true, if_false]
  cases hemp : (rest.filter (fun u => transEq u m)).isEmpty with
  | true =>
    have hnil : rest.filter (fun u => transEq u m) = [] := by
      simpa using hemp
    have hcd0 : classDatafiles rest m = [] := by
      simp [classDatafiles, hnil]
    simp [hcd0]
  | false =>
    simp only [Bool.false_eq_true, if_false]
    simp [List.append_assoc]

theorem pairwise_transEq_set : ∀ (l : List Transition) (i : ℕ) (x : Transition),
    i < l.length →
    l.Pairwise (fun a b => transEq a b = false) →
    makeDict x = makeDict (l.getD i x) →
    (l.set i x).Pairwise (fun a b => transEq a b = false)
  | [], i, x, hi, _, _ => by simp at hi
  | m :: l, 0, x, _, hp, hd => by
    rw [List.pairwise_cons] at hp
    rw [List.set_cons_zero, List.pairwise_cons]
    refine ⟨?_, hp.2⟩
    intro b hb
    rw [transEq_congr_left x m b (by simpa using hd)]
    exact hp.1 b hb
  | m :: l, i + 1, x, hi, hp, hd => by
    rw [List.pairwise_cons] at hp
    rw [List.set_cons_succ, List.pairwise_cons]
    have hi2 : i < l.length := by simpa using hi
    refine ⟨?_, pairwise_transEq_set l i x hi2 hp.2 (by simpa using hd)⟩
    intro b hb
    rcases List.mem_or_eq_of_mem_set hb with hbl | hbx
    · exact hp.1 b hbl
    · subst hbx
      have hmem : l.getD i b ∈ l := by
        rw [List.getD_eq_getElem?_getD, List.getElem?_eq_getElem hi2]
        simpa using List.getElem_mem hi2
      have hd2 : makeDict b = makeDict (l.getD i b) := by
        simpa using hd
      rw [transEq_congr_right m b (l.getD i b) hd2]
      exact hp.1 (l.getD i b) hmem

set_option maxHeartbeats 1000000 in
theorem mergeSpec_cons (t : Transition) (l : List Transition) :
    mergeSpec (t :: l)
      = { t with datafiles := some (t.datafiles.getD [] ++ classDatafiles l t) }
        :: mergeSpec (l.filter (fun u => ! transEq u t)) := by
  rw [mergeSpec]

theorem findIdx?_getD (l : List Transition) (t : Transition) (i : ℕ)
    (h : l.findIdx? (fun m => transEq m t) = some i) :
    i < l.length ∧ transEq (l.getD i t) t = true := by
  rcases List.findIdx?_eq_some_iff_getElem.mp h with ⟨hlen, hpred, _⟩
  refine ⟨hlen, ?_⟩
  rw [List.getD_eq_getElem?_getD, List.getElem?_eq_getElem hlen]
  simpa using hpred

/-- Replacing the first `transEq`-match of `t` in a pairwise-unequal
`merged` list by its datafile-extended version turns the element-wise
absorption of `rest` into the absorption of `t :: rest`. -/
theorem mapAbsorb_set : ∀ (merged : List Transition) (i : ℕ)
    (t : Transition) (lt : List String) (rest : List Transition),
    t.datafiles = some lt →
    merged.findIdx? (fun m => transEq m t) = some i →
    merged.Pairwise (fun a b => transEq a b = false) →
    (merged.set i
        { merged.getD i t with
          datafiles := some ((merged.getD i t).datafiles.getD [] ++ lt) }).map
        (absorbOne rest)
      = merged.map (absorbOne (t :: rest))
  | [], i, t, lt, rest, hlt, hfind, _ => by simp at hfind
  | m :: merged', i, t, lt, rest, hlt, hfind, hp => by
    rw [List.pairwise_cons] at hp
    rw [List.findIdx?_cons] at hfind
    by_cases hmt : transEq m t = true
    · rw [hmt] at hfind
      simp only [if_true] at hfind
      obtain rfl : i = 0 := by simpa using hfind.symm
      simp only [List.set_cons_zero, List.getD_cons_zero, List.map_cons]
      have htm' : ∀ m' ∈ merged', transEq t m' = false := by
        intro m' hm'
        cases hcc : transEq t m' with
        | false => rfl
        | true =>
          have := transEq_trans m t m' hmt hcc
          rw [hp.1 m' hm'] at this
          exact absurd this (by simp)
      have hhead := absorbOne_head m t lt rest hmt hlt
      have htail : merged'.map (absorbOne rest)
          = merged'.map (absorbOne (t :: rest)) :=
        List.map_congr_left
          (fun m' hm' => (absorbOne_cons_ne t m' rest (htm' m' hm')).symm)
      rw [hhead, htail]
    · have hmtf : transEq m t = false := by
        cases h' : transEq m t with
        | false => rfl
        | true => exact absurd h' hmt
      rw [hmtf] at hfind
      simp only [Bool.false_eq_true, if_false] at hfind
      rw [List.findIdx?_succ] at hfind
      rcases Option.map_eq_some'.mp hfind with ⟨i', hi', rfl⟩
      simp only [List.set_cons_succ, List.getD_cons_succ, List.map_cons]
      have hhead : absorbOne rest m = absorbOne (t :: rest) m :=
        (absorbOne_cons_ne t m rest
          (by rw [transEq_comm]; exact hmtf)).symm
      have htail := mapAbsorb_set merged' i' t lt rest hlt hi' hp.2
      rw [hhead, htail]

/-- Replacing an element by one with the same `makeDict` key does not
change any `transEq` membership test. -/
theorem any_transEq_set : ∀ (l : List Transition) (i : ℕ) (x u : Transition),
    i < l.length →
    makeDict x = makeDict (l.getD i x) →
    (l.set i x).any (fun m => transEq m u) = l.any (fun m => transEq m u)
  | [], i, x, u, hi, _ => by simp at hi
  | m :: l, 0, x, u, _, hd => by
    simp only [List.set_cons_zero, List.any_cons]
    rw [transEq_congr_left x m u (by simpa using hd)]
  | m :: l, i + 1, x, u, hi, hd => by
    simp only [List.set_cons_succ, List.any_cons]
    rw [any_transEq_set l i x u (by simpa using hi) (by simpa using hd)]

set_option maxHeartbeats 1000000 in
/-- The loop of `checkUniqueness` computes, for any accumulator with
pairwise-unequal entries and inputs that all carry datafiles, the
element-wise absorption of the input into the accumulator followed by the
first-seen merge of the genuinely new entries. -/
theorem checkUniquenessGo_spec : ∀ (ts merged : List Transition),
    (∀ u ∈ ts, u.datafiles ≠ none) →
    merged.Pairwise (fun a b => transEq a b = false) →
    checkUniquenessGo merged ts
      = some (merged.map (absorbOne ts) ++ mergeSpec (newOnes merged ts)) := by
  intro ts
  induction ts with
  | nil =>
    intro merged _ _
    have hm : merged.map (absorbOne []) = merged := by
      have he : (absorbOne []) = fun m => m := funext absorbOne_nil
      rw [he, List.map_id']
    simp [checkUniquenessGo, newOnes, mergeSpec, hm]
  | cons t rest ih =>
    intro merged hdf hp
    have hdf_rest : ∀ u ∈ rest, u.datafiles ≠ none :=
      fun u hu => hdf u (List.mem_cons_of_mem t hu)
    obtain ⟨lt, hlt⟩ : ∃ lt, t.datafiles = some lt := by
      cases hq : t.datafiles with
      | none => exact absurd hq (hdf t (List.mem_cons_self t rest))
      | some l0 => exact ⟨l0, rfl⟩
    rw [checkUniquenessGo]
    cases hfind : merged.findIdx? (fun m => transEq m t) with
    | none =>
      have hnone : ∀ m ∈ merged, transEq m t = false :=
        fun m hm => List.findIdx?_eq_none_iff.mp hfind m hm
      have hany : merged.any (fun m => transEq m t) = false := by
        simp only [List.any_eq_false]
        intro m hm
        simp [hnone m hm]
      have hp2 : (merged ++ [t]).Pairwise (fun a b => transEq a b = false) := by
        rw [List.pairwise_append]
        refine ⟨hp, by simp, ?_⟩
        intro a ha b hb
        simp only [List.mem_singleton] at hb
        subst hb
        exact hnone a ha
      rw [ih (merged ++ [t]) hdf_rest hp2]
      have hmap : merged.map (absorbOne (t :: rest))
          = merged.map (absorbOne rest) :=
        List.map_congr_left (fun m hm => absorbOne_cons_ne t m rest
          (by rw [transEq_comm]; exact hnone m hm))
      have hnew_cons : newOnes merged (t :: rest) = t :: newOnes merged rest := by
        unfold newOnes
        rw [List.filter_cons]
        simp [hany]
      have hnew_app : newOnes (merged ++ [t]) rest
          = (newOnes merged rest).filter (fun u => ! transEq u t) := by
        unfold newOnes
        rw [List.filter_filter]
        apply List.filter_congr
        intro u _
        simp only [List.any_append, List.any_cons, List.any_nil,
          Bool.or_false, Bool.not_or]
        rw [Bool.and_comm, transEq_comm t u]
      have hfilt : rest.filter (fun u =>
            transEq u t && ! merged.any (fun m => transEq m u))
          = rest.filter (fun u => transEq u t) := by
        apply List.filter_congr
        intro u _
        cases hq : transEq u t with
        | false => simp
        | true =>
          simp only [Bool.true_and]
          simp only [Bool.not_eq_eq_eq_not, Bool.not_true, List.any_eq_false]
          intro m hm hmu
          have : transEq m t = true := transEq_trans m u t hmu hq
          rw [hnone m hm] at this
          exact absurd this (by simp)
      have hclass : classDatafiles (newOnes merged rest) t
          = classDatafiles rest t := by
        unfold classDatafiles newOnes
        rw [List.filter_filter, hfilt]
      have hhead :
          ({ t with
             datafiles := some (t.datafiles.getD []
               ++ classDatafiles (newOnes merged rest) t) } : Transition)
            = absorbOne rest t := by
        rw [hclass, absorbOne_eq_update t rest lt hlt]
      have hmsp : mergeSpec (newOnes merged (t :: rest))
          = absorbOne rest t :: mergeSpec (newOnes (merged ++ [t]) rest) := by
        rw [hnew_cons, mergeSpec_cons, hhead, hnew_app]
      rw [List.map_append, hmap, hmsp]
      simp only [List.map_cons, List.map_nil, List.append_assoc,
        List.singleton_append]
    | some i =>
      obtain ⟨hilen, hieq⟩ := findIdx?_getD merged t i hfind
      rw [hlt]
      simp only [dfArgOfFiles]
      rw [addDatafile_files]
      have hgetkey : ∀ d : Transition, merged.getD i d = merged.getD i t := by
        intro d
        rw [List.getD_eq_getElem?_getD, List.getD_eq_getElem?_getD,
          List.getElem?_eq_getElem hilen]
        simp
      generalize hmi2 : ({ merged.getD i t with
          datafiles := some ((merged.getD i t).datafiles.getD [] ++ lt) }
          : Transition) = mi2
      have hdx : makeDict mi2 = makeDict (merged.getD i mi2) := by
        rw [hgetkey mi2, ← hmi2]
        exact makeDict_update_datafiles _ _
      have hp3 : (merged.set i mi2).Pairwise
          (fun a b => transEq a b = false) :=
        pairwise_transEq_set merged i mi2 hilen hp hdx
      show checkUniquenessGo (merged.set i mi2) rest = _
      rw [ih _ hdf_rest hp3]
      have hmap : (merged.set i mi2).map (absorbOne rest)
          = merged.map (absorbOne (t :: rest)) := by
        rw [← hmi2]
        exact mapAbsorb_set merged i t lt rest hlt hfind hp
      have hmem : merged.getD i t ∈ merged := by
        rw [List.getD_eq_getElem?_getD, List.getElem?_eq_getElem hilen]
        simpa using List.getElem_mem hilen
      have hany : merged.any (fun m => transEq m t) = true := by
        rw [List.any_eq_true]
        exact ⟨merged.getD i t, hmem, hieq⟩
      have hnew_cons : newOnes merged (t :: rest) = newOnes merged rest := by
        unfold newOnes
        rw [List.filter_cons]
        simp [hany]
      have hnew_set : newOnes (merged.set i mi2) rest
          = newOnes merged rest := by
        unfold newOnes
        apply List.filter_congr
        intro u _
        rw [any_transEq_set merged i mi2 u hilen hdx]
      rw [hmap, hnew_set, hnew_cons]

theorem foldl_min_comm (xs : List ℚ) : ∀ x y : ℚ,
    xs.foldl min (min x y) = min x (xs.foldl min y) := by
  induction xs with
  | nil => intro x y; rfl
  | cons z xs ih =>
    intro x y
    simp only [List.foldl_cons]
    rw [min_assoc, ih]

theorem listMin_cons₂ (x y : ℚ) (xs : List ℚ) :
    listMin (x :: y :: xs) = min x (listMin (y :: xs)) := by
  simp only [listMin, List.foldl_cons]
  exact foldl_min_comm xs x y

/-- `argminIdx` returns a valid index of the first occurrence of the
minimum: the selected score is the minimum, no score is smaller, and
every earlier score is strictly larger. -/
theorem argmin_spec : ∀ l : List ℚ, l ≠ [] →
    argminIdx l < l.length ∧
    l.getD (argminIdx l) 0 = listMin l ∧
    (∀ j, j < l.length → listMin l ≤ l.getD j 0) ∧
    (∀ j, j < argminIdx l → listMin l < l.getD j 0)
  | [], h => absurd rfl h
  | [x], _ => by
    refine ⟨by simp [argminIdx], by simp [argminIdx, listMin], ?_, ?_⟩
    · intro j hj
      have hj0 : j = 0 := by simpa using Nat.lt_one_iff.mp (by simpa using hj)
      subst hj0
      simp [listMin]
    · intro j hj
      simp [argminIdx] at hj
  | x :: y :: xs, _ => by
    obtain ⟨ih1, ih2, ih3, ih4⟩ := argmin_spec (y :: xs) (by simp)
    have hmin := listMin_cons₂ x y xs
    by_cases hx : x ≤ listMin (y :: xs)
    · have ha : argminIdx (x :: y :: xs) = 0 := by simp [argminIdx, hx]
      have hm : listMin (x :: y :: xs) = x := by
        rw [hmin]; exact min_eq_left hx
      refine ⟨by simp [ha], by simp [ha, hm], ?_, ?_⟩
      · intro j hj
        cases j with
        | zero => simp [hm]
        | succ j =>
          have hj2 : j < (y :: xs).length := by simpa using hj
          rw [hm, List.getD_cons_succ]
          exact le_trans hx (ih3 j hj2)
      · intro j hj
        rw [ha] at hj
        omega
    · have hxlt : listMin (y :: xs) < x := not_le.mp hx
      have ha : argminIdx (x :: y :: xs) = argminIdx (y :: xs) + 1 := by
        simp [argminIdx, hx]
      have hm : listMin (x :: y :: xs) = listMin (y :: xs) := by
        rw [hmin]; exact min_eq_right (le_of_lt hxlt)
      refine ⟨?_, ?_, ?_, ?_⟩
      · rw [ha]
        simpa using Nat.succ_lt_succ ih1
      · rw [ha, hm, List.getD_cons_succ]
        exact ih2
      · intro j hj
        cases j with
        | zero => rw [hm]; simpa using le_of_lt hxlt
        | succ j =>
          rw [hm, List.getD_cons_succ]
          exact ih3 j (by simpa using hj)
      · intro j hj
        rw [ha] at hj
        cases j with
        | zero => rw [hm]; simpa using hxlt
        | succ j =>
          rw [hm, List.getD_cons_succ]
          exact ih4 j (by omega)

/-! ## Part 4: the claims -/

/-- C1: for every key whose stored value is the reserved volatile marker
`'%'`, `Star.__getitem__` deletes the entry, re-derives a concrete value
through the `missingInput` dispatch, returns that derived value to the
caller, and stores `'%'` for the key again, so every subsequent read
repeats the recomputation. -/
theorem volatile_read_rederives (n : ℕ) (s : Store) (key : String) (v : Value)
    (hvol : s key = some volatileMarker)
    (hderiv : (missingInput n (Store.erase s key) key).bind
        (fun s2 => s2 key) = some v) :
    (getItem (n + 1) s key).map Prod.fst = some v ∧
    (getItem (n + 1) s key).map (fun p => p.2 key)
      = some (some volatileMarker) := by
  cases h1 : missingInput n (Store.erase s key) key with
  | none => rw [h1] at hderiv; simp at hderiv
  | some s2 =>
    rw [h1] at hderiv
    simp only [Option.some_bind] at hderiv
    have hvolm : volatileMarker.isVolatile = true := rfl
    refine ⟨?_, ?_⟩ <;>
      simp [getItem, hvol, hvolm, h1, hderiv, Store.insert]

/-- Witness for C1: on the store holding only `N_QUAD = '%'`, reading
`N_QUAD` returns the derived default `100` while the store keeps `'%'`. -/
theorem volatile_read_rederives_witness :
    (getItem 2 storeVolatileNQ "N_QUAD").map Prod.fst
      = some (Value.int 100) ∧
    (getItem 2 storeVolatileNQ "N_QUAD").map (fun p => p.2 "N_QUAD")
      = some (some volatileMarker) :=
  volatile_read_rederives 1 storeVolatileNQ "N_QUAD" (Value.int 100) rfl rfl

/-- C2: a read of a key that is not stored as the volatile marker, once it
has succeeded (deriving and storing a value when the key was absent),
is cached: any second read returns the same stored value with the store
untouched, and succeeds already at recursion depth zero, i.e. without
invoking any derivation rule; moreover every modelled default-filling
`calc*` rule is safe-default: invoked when its key already has a value it
leaves the store unchanged. -/
theorem nonvolatile_read_cached_and_safe_defaults :
    (∀ (n : ℕ) (s : Store) (key : String) (v : Value) (s1 : Store),
      s key ≠ some volatileMarker → v ≠ volatileMarker →
      getItem (n + 1) s key = some (v, s1) →
      ∀ m : ℕ, getItem (m + 1) s1 key = some (v, s1)) ∧
    (∀ s : Store, Store.hasKey s "N_QUAD" = true → calcN_QUAD s = s) ∧
    (∀ s : Store, Store.hasKey s "LL_OFFSET" = true → calcLL_OFFSET s = s) ∧
    (∀ s : Store, Store.hasKey s "STARTYPE" = true → calcSTARTYPE s = s) ∧
    (∀ s : Store, Store.hasKey s "STARFILE" = true → calcSTARFILE s = s) ∧
    (∀ (n : ℕ) (s : Store), Store.hasKey s "T_STAR" = true →
      Store.hasKey s "L_STAR" = true → Store.hasKey s "R_STAR" = true →
      calcTLR (n + 1) s = some s) := by
  refine ⟨?_, ?_, ?_, ?_, ?_, ?_⟩
  · intro n s key v s1 hvol hv h m
    have hst : s1 key = some v := getItem_stores n s key v s1 hvol h
    exact getItem_present m s1 key v hst (isVolatile_false_of_ne v hv)
  · intro s h; simp [calcN_QUAD, h]
  · intro s h; simp [calcLL_OFFSET, h]
  · intro s h; simp [calcSTARTYPE, h]
  · intro s h; simp [calcSTARFILE, h]
  · intro n s h1 h2 h3; simp [calcTLR, h1, h2, h3]

/-- Witness for C2: on the store holding `N_QUAD = 100`, a second read at
any depth (even depth `1`, which forbids derivation) returns `100` with
the store unchanged, and `calcN_QUAD` is a no-op. -/
theorem nonvolatile_read_cached_witness :
    getItem 1 storeNQ "N_QUAD" = some (Value.int 100, storeNQ) ∧
    calcN_QUAD storeNQ = storeNQ :=
  ⟨nonvolatile_read_cached_and_safe_defaults.1 0 storeNQ "N_QUAD"
      (Value.int 100) storeNQ (by simp [storeNQ, volatileMarker])
      (by simp [volatileMarker]) rfl 0,
    nonvolatile_read_cached_and_safe_defaults.2.1 storeNQ rfl⟩

/-- C7: in the chi-squared scoring of `getBestVlsr`, an interpolated
observed sample strictly below `-noise` is excluded together with the
modeled sample at its grid position, so a profile with such an outlier
scores exactly like the profile with that sample removed; and when every
observed sample is at or above `-noise` (however large), nothing is
excluded and the masked score is the plain chi-squared. -/
theorem maskedChi2_clips_negative_outliers :
    (∀ (noise d m : ℚ) (l1 l2 m1 m2 : List ℚ), l1.length = m1.length →
      d < -noise →
      maskedChi2 (l1 ++ d :: l2) (m1 ++ m :: m2) noise
        = maskedChi2 (l1 ++ l2) (m1 ++ m2) noise) ∧
    (∀ (ds ms : List ℚ) (noise : ℚ), (∀ d ∈ ds, -noise ≤ d) →
      maskedChi2 ds ms noise = calcChiSquared ds ms noise) := by
  constructor
  · intro noise d m l1 l2 m1 m2 hlen hd
    have hdd : decide (-noise ≤ d) = false := by
      simp [decide_eq_false_iff_not, not_le, hd]
    simp only [maskedChi2, List.zip_append hlen, List.zip_cons_cons,
      List.filter_append, List.filter_cons]
    rw [hdd]
    simp
  · intro ds ms noise h
    have hkeep : ((ds.zip ms).filter (fun p => decide (-noise ≤ p.1)))
        = ds.zip ms := by
      rw [List.filter_eq_self]
      intro p hp
      have := (List.of_mem_zip hp).1
      simp [h p.1 this]
    simp only [maskedChi2, hkeep]
    simp [calcChiSquared, zipFstSnd]

/-- Witness for C7: with noise `1`, the sample list `[0, -2, 1]` (data)
against `[0, 5, 1]` (model) scores exactly like `[0, 1]` against
`[0, 1]`, and a sample list that stays at or above `-1` is unmasked. -/
theorem maskedChi2_clips_negative_outliers_witness :
    maskedChi2 [0, -2, 1] [0, 5, 1] 1 = maskedChi2 [0, 1] [0, 1] 1 ∧
    maskedChi2 [0, 1000000] [0, 1] 1 = calcChiSquared [0, 1000000] [0, 1] 1 :=
  ⟨maskedChi2_clips_negative_outliers.1 1 (-2) 5 [0] [1] [0] [1] rfl
      (by norm_num),
    maskedChi2_clips_negative_outliers.2 [0, 1000000] [0, 1] 1 (by decide)⟩

/-- C8 counterexample: transition equality does not depend only on the
canonical descriptor: two transitions with identical canonical
descriptors that differ only in `N_QUAD` are unequal under
`Transition.__eq__`, because `makeDict` also records `N_QUAD` (and
`USE_MASER_IN_SPHINX`). -/
theorem transEq_depends_on_nquad :
    canonicalDescriptor transW = canonicalDescriptor transNQ2 ∧
    transEq transW transNQ2 = false := by
  exact ⟨rfl, by decide⟩

/-- C8 amended: transition equality and hash depend exactly on the
canonical descriptor together with `N_QUAD` and `USE_MASER_IN_SPHINX`
(the `makeDict` snapshot): two transitions agreeing on those are equal
with agreeing hash keys, regardless of any difference in datafiles,
model ids, best-fit velocity or cached spectra. -/
theorem transEq_of_descriptor_nquad_maser (t1 t2 : Transition)
    (hd : canonicalDescriptor t1 = canonicalDescriptor t2)
    (hq : t1.n_quad = t2.n_quad)
    (hm : t1.use_maser_in_sphinx = t2.use_maser_in_sphinx) :
    transEq t1 t2 = true ∧ transHashKey t1 = transHashKey t2 := by
  have h1 := congrArg CanonicalDescriptor.molecule_full hd
  have h2 := congrArg CanonicalDescriptor.vup hd
  have h3 := congrArg CanonicalDescriptor.jup hd
  have h4 := congrArg CanonicalDescriptor.kaup hd
  have h5 := congrArg CanonicalDescriptor.kcup hd
  have h6 := congrArg CanonicalDescriptor.vlow hd
  have h7 := congrArg CanonicalDescriptor.jlow hd
  have h8 := congrArg CanonicalDescriptor.kalow hd
  have h9 := congrArg CanonicalDescriptor.kclow hd
  have h10 := congrArg CanonicalDescriptor.telescope hd
  have h11 := congrArg CanonicalDescriptor.offset hd
  simp only [canonicalDescriptor] at h1 h2 h3 h4 h5 h6 h7 h8 h9 h10 h11
  have hb : transitionBody t1 = transitionBody t2 := by
    simp only [transitionBody, h1, h2, h3, h4, h5, h6, h7, h8, h9, h10, h11]
  have hdict : makeDict t1 = makeDict t2 := by
    simp [makeDict, hb, hq, hm]
  exact ⟨by simp [transEq, hdict], by simp [transHashKey, hdict]⟩

/-- Witness for C8 (amended): two transitions with the same descriptor,
`N_QUAD` and maser flag but different datafiles, model ids, best-fit
velocity and cached sphinx profile are equal with equal hash keys. -/
theorem transEq_of_descriptor_nquad_maser_witness :
    transEq transA transB = true ∧ transHashKey transA = transHashKey transB :=
  transEq_of_descriptor_nquad_maser transA transB rfl rfl rfl

/-- C9: a transition constructed without an explicit frequency resolves
its level indices from the owning molecule's radiative table; when the
resolved index pair does not match exactly one table entry the
construction fails, and when it matches exactly one entry the transition
is built with that entry's frequency and the resolved indices. -/
theorem mkTransition_index_resolution :
    (∀ (m : Molecule) (tel : Option String)
        (vup jup kaup kcup vlow jlow kalow kclow : ℤ) (offset : ℚ)
        (nq um : ℤ) (vexp : Option ℚ) (dfa : DFArg),
      m.spec_indices = 0 →
      (m.radiat.filter (fun e =>
          decide (e.low_i = jlow + vlow * m.ny_low + 1) &&
          decide (e.up_i = jup + vup * m.ny_low + 1))).length ≠ 1 →
      mkTransition m tel vup jup kaup kcup vlow jlow kalow kclow offset
        none nq um vexp dfa = none) ∧
    (∀ (m : Molecule) (tel : Option String)
        (vup jup kaup kcup vlow jlow kalow kclow : ℤ) (offset : ℚ)
        (nq um : ℤ) (vexp : Option ℚ) (dfa : DFArg) (e : RadiatEntry),
      m.spec_indices = 0 →
      m.radiat.filter (fun e =>
          decide (e.low_i = jlow + vlow * m.ny_low + 1) &&
          decide (e.up_i = jup + vup * m.ny_low + 1)) = [e] →
      (mkTransition m tel vup jup kaup kcup vlow jlow kalow kclow offset
          none nq um vexp dfa).map
          (fun t => (t.frequency, t.up_i, t.low_i))
        = some (e.frequency, some (jup + vup * m.ny_low + 1),
            some (jlow + vlow * m.ny_low + 1))) := by
  constructor
  · intro m tel vup jup kaup kcup vlow jlow kalow kclow offset nq um vexp dfa
      hspec hlen
    have hti : getTransInfo m.radiat (jlow + vlow * m.ny_low + 1)
        (jup + vup * m.ny_low + 1) = none := by
      unfold getTransInfo
      cases hf : m.radiat.filter (fun e =>
          decide (e.low_i = jlow + vlow * m.ny_low + 1) &&
          decide (e.up_i = jup + vup * m.ny_low + 1)) with
      | nil => rfl
      | cons a l =>
        cases l with
        | nil => rw [hf] at hlen; simp at hlen
        | cons b l2 => rfl
    simp [mkTransition, setIndices, hspec, hti]
  · intro m tel vup jup kaup kcup vlow jlow kalow kclow offset nq um vexp dfa
      e hspec hf
    have hti : getTransInfo m.radiat (jlow + vlow * m.ny_low + 1)
        (jup + vup * m.ny_low + 1) = some e := by
      unfold getTransInfo
      rw [hf]
    simp [mkTransition, setIndices, hspec, hti]

/-- Witness for C9: constructing a CO transition without frequency on a
molecule whose table duplicates the index pair `(1, 2)` fails. -/
theorem mkTransition_index_resolution_witness :
    mkTransition molDup (some "HIFI") 0 1 0 0 0 0 0 0 0 none 100 0 none
      DFArg.absent = none :=
  mkTransition_index_resolution.1 molDup (some "HIFI") 0 1 0 0 0 0 0 0 0
    100 0 none DFArg.absent rfl (by decide)

/-- C4 counterexample: `checkUniqueness` does not merge every input list
of transitions: a later duplicate carrying `None` datafiles while its
representative already holds a datafile list makes `addDatafile` fail
(`list.extend(None)` raises `TypeError`), so no merged list is
returned. -/
theorem checkUniqueness_crashes_on_absent_datafiles :
    checkUniqueness [transDFa, transW] = none := by decide

/-- C4 amended: on every input list whose transitions all carry datafile
lists, `checkUniqueness` returns exactly the first-seen merge
`mergeSpec`: one representative per class of equal transitions
(`Transition.__eq__`, i.e. the canonical descriptor together with
`N_QUAD` and the maser flag), kept in first-seen input order, each
holding its own datafiles extended, in order and without loss, by those
of all later duplicates; merging two duplicates with datafile sets
`{a.dat}` and `{b.dat}` yields one representative with exactly
`[a.dat, b.dat]`. -/
theorem checkUniqueness_merges :
    (∀ ts : List Transition, (∀ u ∈ ts, u.datafiles ≠ none) →
      checkUniqueness ts = some (mergeSpec ts)) ∧
    checkUniqueness [transDFa, transDFb]
      = some [{ transW with datafiles := some ["a.dat", "b.dat"] }] := by
  constructor
  · intro ts h
    have hnew : newOnes [] ts = ts := by
      unfold newOnes
      simp
    rw [checkUniqueness,
      checkUniquenessGo_spec ts [] h List.Pairwise.nil, hnew]
    simp only [List.map_nil, List.nil_append]
  · decide

/-- Witness for C4 (amended): the merge theorem applied to the
two-element class with datafiles `a.dat` and `b.dat`. -/
theorem checkUniqueness_merges_witness :
    checkUniqueness [transDFa, transDFb]
      = some (mergeSpec [transDFa, transDFb]) :=
  checkUniqueness_merges.1 [transDFa, transDFb] (by decide)

/-- C5: the final phase of `calcGAS_LINES` raises its fatal error exactly
when the number of transitions in the assembled collection differs from
the number of distinct string serializations `str(trans)`; when all
serializations are distinct no error is raised and the collection is
returned sorted by serialization. -/
theorem calcGAS_LINES_check_spec (lines : List Transition) :
    ((∃ e, calcGAS_LINES_check lines = Except.error e) ↔
      lines.length ≠ ((lines.map transitionStr).dedup).length) ∧
    (∀ out, calcGAS_LINES_check lines = Except.ok out →
      out.Perm lines ∧ (out.map transitionStr).Sorted (· ≤ ·)) := by
  have hperm : (lines.mergeSort
      (fun a b => decide (transitionStr a ≤ transitionStr b))).Perm lines :=
    List.mergeSort_perm lines _
  have hlen : (lines.mergeSort
      (fun a b => decide (transitionStr a ≤ transitionStr b))).length
      = lines.length := hperm.length_eq
  have hded : ((lines.mergeSort
        (fun a b => decide (transitionStr a ≤ transitionStr b))).map
        transitionStr).dedup.length
      = ((lines.map transitionStr).dedup).length :=
    ((hperm.map transitionStr).dedup).length_eq
  have hsorted : ((lines.mergeSort
      (fun a b => decide (transitionStr a ≤ transitionStr b))).map
      transitionStr).Sorted (· ≤ ·) := by
    rw [List.Sorted, List.pairwise_map]
    have := @List.sorted_mergeSort Transition
      (fun a b : Transition => decide (transitionStr a ≤ transitionStr b))
      (fun a b c h1 h2 => by
        simp only [decide_eq_true_eq] at h1 h2 ⊢
        exact le_trans h1 h2)
      (fun a b => by
        simp only [Bool.or_eq_true, decide_eq_true_eq]
        exact le_total (transitionStr a) (transitionStr b))
      lines
    exact this.imp (fun h => by simpa using h)
  by_cases hc : (lines.mergeSort
        (fun a b => decide (transitionStr a ≤ transitionStr b))).length
      = ((lines.mergeSort
        (fun a b => decide (transitionStr a ≤ transitionStr b))).map
        transitionStr).dedup.length
  · constructor
    · simp only [calcGAS_LINES_check, hc, if_true]
      constructor
      · intro h
        rcases h with ⟨e, he⟩
        exact absurd he (by simp)
      · intro h
        exact absurd (hlen ▸ hded ▸ hc) h
    · intro out hout
      simp only [calcGAS_LINES_check, hc, if_true, Except.ok.injEq] at hout
      rw [← hout]
      exact ⟨hperm, hsorted⟩
  · constructor
    · simp only [calcGAS_LINES_check, hc, if_false]
      constructor
      · intro _
        intro hcontra
        exact hc (by rw [hlen, hded]; exact hcontra)
      · intro _
        exact ⟨_, rfl⟩
    · intro out hout
      simp only [calcGAS_LINES_check, hc, if_false] at hout
      exact absurd hout (by simp)

/-- Witness for C5: a collection of two unequal transitions (different
`N_QUAD`) with identical serializations raises the fatal error, and a
singleton collection is returned as such. -/
theorem calcGAS_LINES_check_spec_witness :
    (∃ e, calcGAS_LINES_check [transW, transNQ2] = Except.error e) ∧
    ([transW].Perm [transW] ∧
      ([transW].map transitionStr).Sorted (· ≤ ·)) :=
  ⟨(calcGAS_LINES_check_spec [transW, transNQ2]).1.mpr (by decide),
    (calcGAS_LINES_check_spec [transW]).2 [transW] (by simp [calcGAS_LINES_check])⟩

/-- C3: `calcTLR` computes exactly the missing one of `T_STAR`, `L_STAR`,
`R_STAR` by Stefan-Boltzmann in solar units -- `T_STAR =
(L/R^2)^(1/4)*5778`, `L_STAR = R^2*(T/5778)^4`, `R_STAR =
sqrt(L)*(5778/T)^2` -- and is a no-op when all three are present; with
`T_STAR = 3000` and `L_STAR = 10000` present, reading `R_STAR` yields
`sqrt(10000)*(5778/3000)^2` within `1e-6` relative tolerance, and with
`R_STAR` and `T_STAR` present the computed `L_STAR` reproduces `10000`
within the same tolerance. -/
theorem calcTLR_stefan_boltzmann :
    (∀ (n : ℕ) (s : Store) (l r : ℝ), s "T_STAR" = none →
      s "L_STAR" = some (Value.real l) → s "R_STAR" = some (Value.real r) →
      calcTLR (n + 2) s = some (s.insert "T_STAR"
        (Value.real ((l / r ^ 2) ^ ((1 : ℝ) / 4) * 5778)))) ∧
    (∀ (n : ℕ) (s : Store) (r t : ℝ), s "L_STAR" = none →
      s "R_STAR" = some (Value.real r) → s "T_STAR" = some (Value.real t) →
      calcTLR (n + 2) s = some (s.insert "L_STAR"
        (Value.real (r ^ 2 * (t / 5778) ^ 4)))) ∧
    (∀ (n : ℕ) (s : Store) (l t : ℝ), 0 ≤ l → s "R_STAR" = none →
      s "L_STAR" = some (Value.real l) → s "T_STAR" = some (Value.real t) →
      calcTLR (n + 2) s = some (s.insert "R_STAR"
        (Value.real (Real.sqrt l * (5778 / t) ^ 2)))) ∧
    (∀ (n : ℕ) (s : Store), Store.hasKey s "T_STAR" = true →
      Store.hasKey s "L_STAR" = true → Store.hasKey s "R_STAR" = true →
      calcTLR (n + 1) s = some s) ∧
    ((getItem 9 storeTL "R_STAR").map Prod.fst
        = some (Value.real rComputedVal) ∧
      |rComputedVal - Real.sqrt 10000 * (5778 / 3000) ^ 2|
        ≤ 1 / 1000000 * (Real.sqrt 10000 * (5778 / 3000) ^ 2)) ∧
    ((getItem 9 storeRT "L_STAR").map Prod.fst
        = some (Value.real lComputedVal) ∧
      |lComputedVal - 10000| ≤ 1 / 1000000 * 10000) := by
  have hrdiv : ∀ x : ℝ, x ^ (2 : ℝ) = x ^ (2 : ℕ) := by
    intro x
    rw [show ((2 : ℝ)) = ((2 : ℕ) : ℝ) by norm_num, Real.rpow_natCast]
  have hrfour : ∀ x : ℝ, x ^ (4 : ℝ) = x ^ (4 : ℕ) := by
    intro x
    rw [show ((4 : ℝ)) = ((4 : ℕ) : ℝ) by norm_num, Real.rpow_natCast]
  have hsq : ∀ (l a : ℝ), 0 ≤ l →
      (l * a ^ (4 : ℕ)) ^ ((1 : ℝ) / 2) = Real.sqrt l * a ^ 2 := by
    intro l a hl
    rw [← Real.sqrt_eq_rpow,
      show a ^ (4 : ℕ) = (a ^ 2) ^ 2 by ring,
      Real.sqrt_mul hl, Real.sqrt_sq (by positivity)]
  have calc1 : ∀ (n : ℕ) (s : Store) (l r : ℝ), s "T_STAR" = none →
      s "L_STAR" = some (Value.real l) → s "R_STAR" = some (Value.real r) →
      calcTLR (n + 2) s = some (s.insert "T_STAR"
        (Value.real ((l / r ^ (2 : ℝ)) ^ ((1 : ℝ) / 4) * Tsun))) := by
    intro n s l r hT hL hR
    have hKT : Store.hasKey s "T_STAR" = false := by
      simp [Store.hasKey, hT]
    have gL := getItem_present n s "L_STAR" (Value.real l) hL rfl
    have gR := getItem_present n s "R_STAR" (Value.real r) hR rfl
    rw [calcTLR]
    simp [hKT, gL, gR, Value.toReal]
  have calc2 : ∀ (n : ℕ) (s : Store) (r t : ℝ), s "L_STAR" = none →
      s "R_STAR" = some (Value.real r) → s "T_STAR" = some (Value.real t) →
      calcTLR (n + 2) s = some (s.insert "L_STAR"
        (Value.real (r ^ (2 : ℝ) * (t / Tsun) ^ (4 : ℝ)))) := by
    intro n s r t hL hR hT
    have hKT : Store.hasKey s "T_STAR" = true := by
      simp [Store.hasKey, hT]
    have hKL : Store.hasKey s "L_STAR" = false := by
      simp [Store.hasKey, hL]
    have gR := getItem_present n s "R_STAR" (Value.real r) hR rfl
    have gT := getItem_present n s "T_STAR" (Value.real t) hT rfl
    rw [calcTLR]
    simp [hKT, hKL, gR, gT, Value.toReal]
  have calc3 : ∀ (n : ℕ) (s : Store) (l t : ℝ), s "R_STAR" = none →
      s "L_STAR" = some (Value.real l) → s "T_STAR" = some (Value.real t) →
      calcTLR (n + 2) s = some (s.insert "R_STAR"
        (Value.real ((l * (Tsun / t) ^ (4 : ℕ)) ^ ((1 : ℝ) / 2)))) := by
    intro n s l t hR hL hT
    have hKT : Store.hasKey s "T_STAR" = true := by
      simp [Store.hasKey, hT]
    have hKL : Store.hasKey s "L_STAR" = true := by
      simp [Store.hasKey, hL]
    have hKR : Store.hasKey s "R_STAR" = false := by
      simp [Store.hasKey, hR]
    have gL := getItem_present n s "L_STAR" (Value.real l) hL rfl
    have gT := getItem_present n s "T_STAR" (Value.real t) hT rfl
    rw [calcTLR]
    simp [hKT, hKL, hKR, gL, gT, Value.toReal]
  have hrc : rComputedVal = Real.sqrt 10000 * (5778 / 3000) ^ 2 := by
    rw [rComputedVal, Tsun, hsq 10000 ((5778 : ℝ) / 3000) (by norm_num)]
  have hlc : lComputedVal = 10000 := by
    rw [lComputedVal, Tsun, hrdiv, hrfour]
    norm_num
  refine ⟨?_, ?_, ?_, ?_, ⟨?_, ?_⟩, ⟨?_, ?_⟩⟩
  · intro n s l r hT hL hR
    rw [calc1 n s l r hT hL hR, hrdiv, Tsun]
  · intro n s r t hL hR hT
    rw [calc2 n s r t hL hR hT, hrdiv, hrfour, Tsun]
  · intro n s l t hl hR hL hT
    rw [calc3 n s l t hR hL hT, hsq l _ hl, Tsun]
  · intro n s h1 h2 h3
    simp [calcTLR, h1, h2, h3]
  · have hmi : missingInput 8 storeTL "R_STAR" = calcTLR 7 storeTL := by
      rw [missingInput]
      simp
    have hct : calcTLR 7 storeTL = some (Store.insert storeTL "R_STAR"
        (Value.real rComputedVal)) := by
      have := calc3 5 storeTL 10000 3000 rfl rfl rfl
      rw [this]
      rfl
    rw [getItem]
    have hnone : storeTL "R_STAR" = none := rfl
    rw [hnone, hmi, hct]
    simp [Store.insert]
  · rw [hrc]
    simp only [sub_self, abs_zero]
    positivity
  · have hmi : missingInput 8 storeRT "L_STAR" = calcTLR 7 storeRT := by
      rw [missingInput]
      simp
    have hct : calcTLR 7 storeRT = some (Store.insert storeRT "L_STAR"
        (Value.real lComputedVal)) := by
      have := calc2 5 storeRT (927369 / 2500) 3000 rfl rfl rfl
      rw [this]
      rfl
    rw [getItem]
    have hnone : storeRT "L_STAR" = none := rfl
    rw [hnone, hmi, hct]
    simp [Store.insert]
  · rw [hlc]
    simp only [sub_self, abs_zero]
    norm_num

/-- Witness for C3, applying the `L_STAR` branch at a concrete store:
with `R_STAR = 2` and `T_STAR = 5778` present and `L_STAR` absent,
`calcTLR` stores `L_STAR = 2^2*(5778/5778)^4`. -/
theorem calcTLR_stefan_boltzmann_witness :
    calcTLR 2 storeR2T = some (Store.insert storeR2T "L_STAR"
      (Value.real ((2 : ℝ) ^ 2 * ((5778 : ℝ) / 5778) ^ 4))) :=
  calcTLR_stefan_boltzmann.2.1 0 storeR2T 2 5778 rfl rfl rfl

set_option maxRecDepth 100000 in
/-- C6: with observed data, a sphinx model and `vexp` available,
`getBestVlsr` scores the 31 candidates of the uniform grid over
`[vlsr - 0.5*vexp, vlsr + 0.5*vexp]` and returns the first candidate
attaining the minimal chi-squared (ties broken by ascending grid order);
on an observed profile that is the model shifted by exactly `+2` grid
units from the nominal velocity `0`, the returned velocity is `0 + 2` and
the recorded chi-squared is `0`. -/
theorem getBestVlsr_grid_search :
    (∀ (dataRead : List String → List LProf)
        (sphinxRead : Option SphinxModel) (t : Transition)
        (vlsr : Option ℚ) (lp : LProf) (rest : List LProf)
        (sp : SphinxModel) (vexp : ℚ),
      t.best_vlsr = none → t.lpdata = some (lp :: rest) →
      t.sphinx = some sp → t.vexp = some vexp →
      (getBestVlsr dataRead sphinxRead t vlsr).1
          = some ((vlsrGrid lp.vlsrVal vexp).getD
              (argminIdx (candidateChis lp sp vexp)) 0) ∧
        (getBestVlsr dataRead sphinxRead t vlsr).2.chi2_best_vlsr
          = some (listMin (candidateChis lp sp vexp))) ∧
    (∀ vlsr vexp : ℚ, (vlsrGrid vlsr vexp).length = 31 ∧
      ∀ i : ℕ, i < 31 →
        (vlsrGrid vlsr vexp).getD i 0
          = vlsr - 1/2 * vexp + i * (vexp / 30)) ∧
    (∀ l : List ℚ, l ≠ [] →
      argminIdx l < l.length ∧
      l.getD (argminIdx l) 0 = listMin l ∧
      (∀ j, j < l.length → listMin l ≤ l.getD j 0) ∧
      (∀ j, j < argminIdx l → listMin l < l.getD j 0)) ∧
    ((getBestVlsr (fun _ => []) none transShift (some 0)).1 = some 2 ∧
      (getBestVlsr (fun _ => []) none transShift (some 0)).2.chi2_best_vlsr
        = some 0 ∧
      lpShift.dvel = spShift.mvel.map (fun v => v + 2) ∧
      lpShift.dtmb = spShift.mtmb ∧ lpShift.vlsrVal = 0) := by
  refine ⟨?_, ?_, argmin_spec, ?_, ?_, ?_, ?_, ?_⟩
  · intro dataRead sphinxRead t vlsr lp rest sp vexp hb hlp hsp hv
    constructor <;>
      simp [getBestVlsr, readData, readSphinx, hb, hlp, hsp, hv]
  · intro vlsr vexp
    constructor
    · simp only [vlsrGrid, linspaceQ, List.length_map, List.length_range]
    · intro i hi
      simp only [vlsrGrid, linspaceQ]
      rw [List.getD_eq_getElem?_getD, List.getElem?_map,
        List.getElem?_range hi]
      simp only [Option.map_some', Option.getD_some]
      push_cast
      field_simp
      ring
  · decide
  · decide
  · decide
  · decide
  · decide

/-- Witness for C6: the grid-search equations of the first conjunct
instantiated on the shifted two-point profile. -/
theorem getBestVlsr_grid_search_witness :
    (getBestVlsr (fun _ => []) none transShift (some 0)).1
      = some ((vlsrGrid lpShift.vlsrVal 60).getD
          (argminIdx (candidateChis lpShift spShift 60)) 0) ∧
    (getBestVlsr (fun _ => []) none transShift (some 0)).2.chi2_best_vlsr
      = some (listMin (candidateChis lpShift spShift 60)) :=
  getBestVlsr_grid_search.1 (fun _ => []) none transShift (some 0) lpShift
    [] spShift 60 rfl rfl rfl rfl

/-- C10: `getBestVlsr` caches permanently: once `best_vlsr` is set, every
call returns that stored value immediately with the object state
untouched (so no data read, no sphinx read and no grid search happens),
whatever `vlsr` argument is passed. -/
theorem getBestVlsr_cached (dataRead : List String → List LProf)
    (sphinxRead : Option SphinxModel) (t : Transition) (vlsr : Option ℚ)
    (b : ℚ) (h : t.best_vlsr = some b) :
    getBestVlsr dataRead sphinxRead t vlsr = (some b, t) := by
  simp [getBestVlsr, h]

/-- Witness for C10: a transition with cached `best_vlsr = 5` returns `5`
unchanged for two different `vlsr` arguments. -/
theorem getBestVlsr_cached_witness :
    getBestVlsr (fun _ => []) none transCached (some 17)
      = (some 5, transCached) ∧
    getBestVlsr (fun _ => []) none transCached none
      = (some 5, transCached) :=
  ⟨getBestVlsr_cached (fun _ => []) none transCached (some 17) 5 rfl,
    getBestVlsr_cached (fun _ => []) none transCached none 5 rfl⟩

end ComboCode
